import Mathlib

/-!
Verification of the divecrawl link checker (src/src/LinkChecker.ts) against its
natural-language specification.

The crawler is a single-threaded cooperative-concurrency frontier processor.
We embed it as a small-step transition system: synchronous segments of the
JavaScript code run atomically, and the suspension points (await of the HEAD
request, await of the GET request, and the microtask that runs the finally
callback of a settled task) are the boundaries between steps.  The per-task
interval sleep touches no shared state between the sleep and the HEAD call, so
it is merged with the HEAD suspension.

External collaborators are modelled at their boundary:
- the axios client is an environment assigning each URL a HEAD outcome and a
  GET outcome (a thrown error or a response);
- the WHATWG URL parser is an environment function returning an optional
  structured URL (none models a thrown TypeError);
- an HTML body is modelled by the list of href attribute values of its
  a[href] elements in document order, which is exactly what the cheerio
  traversal in extractLinks reads from it;
- the winston logger is modelled by append-only traces, and the issued HEAD
  and GET requests and screenshot invocations are likewise recorded in traces
  so that claims about them can be stated.
-/

/-- Status field of a CrawlResult: a numeric HTTP status or an error marker
string, mirroring the union type number | string in the source. -/
inductive Status where
  | num (n : Nat)
  | err (msg : String)
deriving DecidableEq, Repr

/-- CrawlResult record from src/@types: url, status, isExternal. -/
structure CrawlResult where
  url : String
  status : Status
  isExternal : Bool
deriving DecidableEq, Repr

/-- Structured WHATWG URL value.  The fragment is the hash without the # sign;
the empty string models an absent fragment, matching the JS convention where
assigning the empty string to url.hash removes the fragment. -/
structure Url where
  scheme : String
  host : String
  path : String
  query : String
  fragment : String
deriving DecidableEq, Repr

/-- Serialization of a structured URL, modelling the url.href getter. -/
def Url.href (u : Url) : String :=
  u.scheme ++ "://" ++ u.host ++ u.path
    ++ (if u.query = "" then "" else "?" ++ u.query)
    ++ (if u.fragment = "" then "" else "#" ++ u.fragment)

/-- A non-throwing HEAD response: status code, the content-type header with ""
when the header is absent (the source applies || to default it), and
headRes.request.responseUrl, which may be absent. -/
structure HeadResponse where
  status : Nat
  contentType : String
  responseUrl : Option String
deriving DecidableEq, Repr

/-- Outcome of awaiting client.head: a response or a thrown error message. -/
inductive HeadOutcome where
  | ok (r : HeadResponse)
  | throws (msg : String)
deriving DecidableEq, Repr

/-- Outcome of awaiting client.get: the response body (modelled by the href
values of its a[href] anchors in document order) or a thrown error message. -/
inductive GetOutcome where
  | ok (anchors : List String)
  | throws (msg : String)
deriving DecidableEq, Repr

/-- The external collaborators of the crawl engine: the HTTP client (HEAD and
GET per URL) and the WHATWG URL library (two-argument resolution and
one-argument parsing; none models a thrown TypeError). -/
structure Env where
  head : String → HeadOutcome
  get : String → GetOutcome
  resolveUrl : String → String → Option Url
  parseUrl : String → Option Url

/-- CrawlerOptions from src/@types.  concurrency is declared number in the
interface; the none case models the JavaScript value undefined reaching the
engine when the option is left unset.  The screenshot field of the options
object is modelled only by whether a callback is configured, because the
engine never reads it. -/
structure CrawlerOptions where
  interval : Nat
  concurrency : Option Nat
  screenshot : Bool
deriving DecidableEq, Repr

/-- JavaScript comparison a < b where b may be undefined: any comparison with
undefined evaluates to false. -/
def jsLtOpt (a : Nat) : Option Nat → Bool
  | none => false
  | some c => a < c

/-- Helper for modelling String.prototype.includes: does hay start with pat. -/
def charsStartWith : List Char → List Char → Bool
  | _, [] => true
  | [], _ :: _ => false
  | h :: t, p :: ps => h == p && charsStartWith t ps

/-- Helper for modelling String.prototype.includes on character lists. -/
def listHasSub : List Char → List Char → Bool
  | [], pat => pat.isEmpty
  | c :: t, pat => charsStartWith (c :: t) pat || listHasSub t pat

/-- Model of String.prototype.includes as used by the source
(contentType.includes of the text/html marker). -/
def strContains (s pat : String) : Bool :=
  listHasSub s.data pat.data

/-- Model of Map.prototype.set on the results map: overwrite in place when the
key is present, append otherwise (JS Map keeps insertion order). -/
def mapSet (m : List (String × CrawlResult)) (k : String) (v : CrawlResult) :
    List (String × CrawlResult) :=
  if m.any (fun p => p.1 == k) then
    m.map (fun p => if p.1 == k then (k, v) else p)
  else m ++ [(k, v)]

/-- Model of Map.prototype.get on the results map. -/
def mapGet (m : List (String × CrawlResult)) (k : String) : Option CrawlResult :=
  (m.find? (fun p => p.1 == k)).map Prod.snd

/-- Model of the spread of a JS Set built from a list: first occurrences in
order, duplicates dropped. -/
def jsSetDedup (l : List String) : List String :=
  l.foldl (fun acc x => if x ∈ acc then acc else acc ++ [x]) []

/-- One anchor step of LinkChecker.extractLinks: skip a falsy href, try to
resolve it against the page URL, log a debug line and skip the anchor on
resolution failure, clear the hash, and keep the normalized href when the
hostname equals the base host.  The accumulator carries the discovered list
and the debug log. -/
def extractStep (resolveUrl : String → String → Option Url) (baseHost : String)
    (pageUrl : String) (acc : List String × List String) (href : String) :
    List String × List String :=
  if href = "" then acc
  else
    match resolveUrl href pageUrl with
    | none => (acc.1, acc.2 ++ ["URLパース失敗: " ++ href])
    | some abs =>
      let stripped := { abs with fragment := "" }
      let normalized := stripped.href
      if stripped.host == baseHost then (acc.1 ++ [normalized], acc.2) else acc

/-- LinkChecker.extractLinks (lines 104 to 125): iterate over the a[href]
anchors of the page, resolve each href against the page URL, drop fragments,
keep same-host URLs, and deduplicate with JS Set semantics.  Returns the
deduplicated link list together with the debug log lines. -/
def extractLinks (resolveUrl : String → String → Option Url) (baseHost : String)
    (anchors : List String) (pageUrl : String) : List String × List String :=
  let r := anchors.foldl (extractStep resolveUrl baseHost pageUrl) ([], [])
  (jsSetDedup r.1, r.2)

/-- Observation traces of a run: issued HEAD requests, issued GET requests,
logger.error lines, logger.debug lines from extractLinks, and screenshot
callback invocations. -/
structure CrawlLog where
  heads : List String
  gets : List String
  errors : List String
  debugs : List String
  screenshots : List String
deriving DecidableEq, Repr

/-- Suspension point of an in-flight task: parked at the HEAD await, parked at
the GET await (carrying the requested url and the final url), or settled with
its finally callback still pending as a microtask. -/
inductive TaskPhase where
  | awaitingHead (url : String)
  | awaitingGet (url finalUrl : String)
  | done
deriving DecidableEq, Repr

/-- Shared state of LinkChecker plus the pending-task multiset and the number
of times the completion promise was resolved. -/
structure CrawlState where
  visited : List String
  queue : List String
  results : List (String × CrawlResult)
  activeWorkers : Nat
  tasks : List TaskPhase
  log : CrawlLog
  resolveCount : Nat
deriving DecidableEq, Repr

/-- Synchronous prefix of LinkChecker.processUrl (lines 58 to 61), which runs
inside the dispatch loop before the first await: test-and-insert on the
visited set.  A claimed URL parks at the HEAD await (the HEAD request for it
is recorded here); an already-visited URL returns at once, leaving a settled
task whose finally callback is still pending. -/
def startTask (url : String) (s : CrawlState) : CrawlState :=
  if url ∈ s.visited then { s with tasks := s.tasks ++ [TaskPhase.done] }
  else
    { s with
      visited := s.visited ++ [url],
      tasks := s.tasks ++ [TaskPhase.awaitingHead url],
      log := { s.log with heads := s.log.heads ++ [url] } }

/-- The while loop of check (lines 35 to 44): while activeWorkers is below the
concurrency limit and the queue is nonempty, shift a URL, increment
activeWorkers, and start its task.  Each iteration consumes one queue element
and startTask never touches the queue, so the initial queue length is
sufficient fuel and the function equals the source loop. -/
def dispatchFuel (c : Option Nat) : Nat → CrawlState → CrawlState
  | 0, s => s
  | fuel + 1, s =>
    match s.queue with
    | [] => s
    | url :: rest =>
      if jsLtOpt s.activeWorkers c then
        dispatchFuel c fuel
          (startTask url { s with queue := rest, activeWorkers := s.activeWorkers + 1 })
      else s

/-- The check function of LinkChecker.run (lines 33 to 50): run the dispatch
loop, then resolve the completion promise when the queue is empty and no
worker is active.  resolveCount counts the resolve calls. -/
def check (opts : CrawlerOptions) (s : CrawlState) : CrawlState :=
  let s1 := dispatchFuel opts.concurrency s.queue.length s
  if s1.queue = [] ∧ s1.activeWorkers = 0 then
    { s1 with resolveCount := s1.resolveCount + 1 }
  else s1

/-- Line 73 of the source: headRes.request.responseUrl || url, with the JS ||
treating both undefined and the empty string as falsy. -/
def finalUrlOf (url : String) (r : HeadResponse) : String :=
  match r.responseUrl with
  | none => url
  | some u => if u = "" then url else u

/-- The logger.error line of the catch block (line 99). -/
def errLine (url msg : String) : String :=
  "エラー (" ++ url ++ "): " ++ msg

/-- The catch block of processUrl (lines 97 to 101): log the error and record
a CrawlResult keyed by the requested URL with an ERR status string and
isExternal false. -/
def recordError (url msg : String) (s : CrawlState) : CrawlState :=
  { s with
    log := { s.log with errors := s.log.errors ++ [errLine url msg] },
    results := mapSet s.results url ⟨url, Status.err ("ERR: " ++ msg), false⟩ }

/-- Resumption of processUrl at the HEAD await (lines 72 to 96): on a thrown
error run the catch block and settle; otherwise compute the final URL, abandon
the task when a differing final URL is already visited, claim a differing
final URL, parse it (a parse failure throws into the catch block), classify
internal against the base host, record the CrawlResult keyed by the final URL,
and when the page is internal with an HTML content type and status 200 issue
the GET and park at the GET await; otherwise settle.  Returns the updated
shared state and the new phase of this task. -/
def headResume (base : Url) (env : Env) (url : String) (s : CrawlState) :
    CrawlState × TaskPhase :=
  match env.head url with
  | HeadOutcome.throws msg => (recordError url msg s, TaskPhase.done)
  | HeadOutcome.ok r =>
    let finalUrl := finalUrlOf url r
    if finalUrl ≠ url ∧ finalUrl ∈ s.visited then (s, TaskPhase.done)
    else
      let s1 :=
        if finalUrl ≠ url then { s with visited := s.visited ++ [finalUrl] } else s
      match env.parseUrl finalUrl with
      | none => (recordError url "Invalid URL" s1, TaskPhase.done)
      | some currentUrl =>
        let isInternal := currentUrl.host == base.host
        let s2 :=
          { s1 with
            results := mapSet s1.results finalUrl
              ⟨finalUrl, Status.num r.status, !isInternal⟩ }
        if isInternal && strContains r.contentType "text/html" && (r.status == 200) then
          ({ s2 with log := { s2.log with gets := s2.log.gets ++ [finalUrl] } },
           TaskPhase.awaitingGet url finalUrl)
        else (s2, TaskPhase.done)

/-- Resumption of processUrl at the GET await (lines 88 to 95): on a thrown
error run the catch block (keyed by the requested URL); otherwise extract the
links of the body and push every link that is not yet visited onto the queue.
The task settles either way. -/
def getResume (base : Url) (env : Env) (url finalUrl : String) (s : CrawlState) :
    CrawlState :=
  match env.get finalUrl with
  | GetOutcome.throws msg => recordError url msg s
  | GetOutcome.ok anchors =>
    let ex := extractLinks env.resolveUrl base.host anchors finalUrl
    { s with
      queue := s.queue ++ ex.1.filter (fun l => !(s.visited.contains l)),
      log := { s.log with debugs := s.log.debugs ++ ex.2 } }

/-- Replace the task list of a state (the resumed task is reinserted at its
position after a resumption computes the new shared state). -/
def CrawlState.mkTasks (s : CrawlState) (ts : List TaskPhase) : CrawlState :=
  { s with tasks := ts }

/-- Nondeterministic interleaving of the in-flight tasks: any parked task may
resume when its awaited response arrives, and any settled task may run its
finally callback (lines 40 to 43), which decrements activeWorkers and re-runs
check. -/
inductive Step (base : Url) (opts : CrawlerOptions) (env : Env) :
    CrawlState → CrawlState → Prop where
  | resumeHead (s : CrawlState) (t1 t2 : List TaskPhase) (url : String)
      (h : s.tasks = t1 ++ TaskPhase.awaitingHead url :: t2) :
      Step base opts env s
        ((headResume base env url s).1.mkTasks (t1 ++ (headResume base env url s).2 :: t2))
  | resumeGet (s : CrawlState) (t1 t2 : List TaskPhase) (url finalUrl : String)
      (h : s.tasks = t1 ++ TaskPhase.awaitingGet url finalUrl :: t2) :
      Step base opts env s
        ((getResume base env url finalUrl s).mkTasks (t1 ++ TaskPhase.done :: t2))
  | taskSettled (s : CrawlState) (t1 t2 : List TaskPhase)
      (h : s.tasks = t1 ++ TaskPhase.done :: t2) :
      Step base opts env s
        (check opts
          { s with tasks := t1 ++ t2, activeWorkers := s.activeWorkers - 1 })

/-- The synchronous part of LinkChecker.run (lines 27 to 52): push the seed
href onto the queue and run check once.  Everything after this point is driven
by task resumptions and finally callbacks. -/
def initState (opts : CrawlerOptions) (base : Url) : CrawlState :=
  check opts
    { visited := [], queue := [base.href], results := [], activeWorkers := 0,
      tasks := [], log := ⟨[], [], [], [], []⟩, resolveCount := 0 }

/-- States reachable during a run started by LinkChecker.run. -/
inductive Reachable (base : Url) (opts : CrawlerOptions) (env : Env) :
    CrawlState → Prop where
  | init : Reachable base opts env (initState opts base)
  | step {s s1 : CrawlState} : Reachable base opts env s →
      Step base opts env s s1 → Reachable base opts env s1

/-- A state from which no step is possible: the run can make no further
progress. -/
def Stuck (base : Url) (opts : CrawlerOptions) (env : Env) (s : CrawlState) : Prop :=
  ∀ s1, ¬ Step base opts env s s1

/-- Lowercase an ASCII uppercase letter, identity elsewhere. -/
def asciiLower (c : Char) : Char :=
  if 'A' ≤ c ∧ c ≤ 'Z' then Char.ofNat (c.toNat + 32) else c

/-- Collation key modelling String.prototype.localeCompare under the default
(ICU root) collation, restricted to ASCII text: a primary pass that is
case-insensitive, then a tertiary pass that puts a lowercase letter before the
corresponding uppercase letter.  The two passes are concatenated into one
numeric key; the primary pass maps each character to its case-folded code
plus one and the separator 0 sits below every character code, so comparing
keys lexicographically compares the primary passes first (including the
proper-prefix case) and breaks primary ties on the tertiary pass. -/
def localeKey (s : String) : List Nat :=
  s.data.map (fun c => (asciiLower c).toNat + 1)
    ++ 0 :: s.data.map (fun c => if 'A' ≤ c ∧ c ≤ 'Z' then 1 else 0)

/-- Model of the comparator a.url.localeCompare(b.url) being nonpositive:
localeLe a b holds iff a sorts no later than b under the default collation. -/
def localeLe (a b : String) : Bool :=
  decide (localeKey a ≤ localeKey b)

/-- The sort order of printReport (line 130), as a relation on results. -/
def reportOrder (a b : CrawlResult) : Prop :=
  localeLe a.url b.url = true

instance : DecidableRel reportOrder := fun a b =>
  inferInstanceAs (Decidable (localeLe a.url b.url = true))

instance : IsTotal CrawlResult reportOrder :=
  ⟨fun a b => by
    unfold reportOrder localeLe
    rcases le_total (localeKey a.url) (localeKey b.url) with h | h
    · exact Or.inl (by simpa using h)
    · exact Or.inr (by simpa using h)⟩

instance : IsTrans CrawlResult reportOrder :=
  ⟨fun a b c hab hbc => by
    unfold reportOrder localeLe at hab hbc ⊢
    exact decide_eq_true (le_trans (of_decide_eq_true hab) (of_decide_eq_true hbc))⟩

/-- Ordinary code-unit lexicographic order on strings (what the JS operator
compares, and what the spec calls ordinary lexicographic string ordering);
on character lists it is the standard lexicographic list order. -/
def lexLeString (a b : String) : Prop :=
  a.data ≤ b.data

instance : DecidableRel lexLeString := fun a b =>
  inferInstanceAs (Decidable (a.data ≤ b.data))

/-- Ordinary lexicographic order lifted to report entries by their URL. -/
def lexLeResult (x y : CrawlResult) : Prop := lexLeString x.url y.url

instance : DecidableRel lexLeResult := fun x y =>
  inferInstanceAs (Decidable (x.url.data ≤ y.url.data))

/-- The ok test of printReport (line 133): typeof status is number and the
status is below 400. -/
def isOkStatus : Status → Bool
  | Status.num n => decide (n < 400)
  | Status.err _ => false

/-- Rendering of a status into the report line. -/
def statusText : Status → String
  | Status.num n => toString n
  | Status.err m => m

/-- One line of the final report (lines 132 to 137): ok icon, status, the
internal or external tag, and the URL. -/
def reportLine (r : CrawlResult) : String :=
  (if isOkStatus r.status then "✅" else "❌")
    ++ " [" ++ statusText r.status ++ "] "
    ++ (if r.isExternal then "[External]" else "[Internal]")
    ++ " " ++ r.url

/-- LinkChecker.printReport (lines 127 to 138): sort the accumulated results
with the localeCompare comparator and render each line.  The JS library sort
with a consistent comparator is modelled by a stable insertion sort over the
comparator relation.  The function is a pure read of the result list. -/
def printReport (rs : List CrawlResult) : List String :=
  (List.insertionSort reportOrder rs).map reportLine

/-! Concrete fixtures used by the witnesses and counterexamples. -/

/-- Seed URL https://e/ of the demonstration runs. -/
def baseE : Url := ⟨"https", "e", "/", "", ""⟩

/-- The internal page https://e/a of the demonstration runs. -/
def urlA : Url := ⟨"https", "e", "/a", "", ""⟩

/-- Options with interval 0, concurrency 1 and a configured screenshot
callback. -/
def opts1 : CrawlerOptions := ⟨0, some 1, true⟩

/-- Options whose concurrency field was left unset (JS undefined). -/
def optsNone : CrawlerOptions := ⟨0, none, false⟩

/-- Demonstration environment: the seed page is internal HTML and links to
/a, to the fragment anchor of the seed itself and to an external host; the
page https://e/a answers its HEAD probe with a redirect onto the already
crawled seed page. -/
def env3 : Env where
  head u :=
    if u = "https://e/" then HeadOutcome.ok ⟨200, "text/html; charset=utf-8", none⟩
    else if u = "https://e/a" then HeadOutcome.ok ⟨200, "text/html", some "https://e/"⟩
    else HeadOutcome.throws "ECONNREFUSED"
  get u :=
    if u = "https://e/" then GetOutcome.ok ["/a", "#top", "https://x/ext", "/a"]
    else GetOutcome.throws "getaddrinfo ENOTFOUND"
  resolveUrl href b :=
    if href = "/a" ∧ b = "https://e/" then some urlA
    else if href = "#top" ∧ b = "https://e/" then some ⟨"https", "e", "/", "", "top"⟩
    else if href = "https://x/ext" ∧ b = "https://e/" then some ⟨"https", "x", "/ext", "", ""⟩
    else none
  parseUrl u :=
    if u = "https://e/" then some baseE
    else if u = "https://e/a" then some urlA
    else none

/-- Environment in which the HEAD probe of the seed returns status 404 as a
non-throwing response, mirroring a client built with validateStatus always
true. -/
def env404 : Env where
  head u :=
    if u = "https://e/" then HeadOutcome.ok ⟨404, "", none⟩
    else HeadOutcome.throws "ECONNREFUSED"
  get _ := GetOutcome.throws "unused"
  resolveUrl _ _ := none
  parseUrl u := if u = "https://e/" then some baseE else none

/-- State after run() dispatched the seed of the env3 run: the seed is
claimed, its task parked at the HEAD await. -/
def st0 : CrawlState := initState opts1 baseE

/-- State after the seed HEAD resumed: the page qualified, its GET was
issued, the task parked at the GET await. -/
def st1 : CrawlState :=
  ((headResume baseE env3 "https://e/" st0).1).mkTasks
    ([] ++ (headResume baseE env3 "https://e/" st0).2 :: [])

/-- State after the seed GET resumed: https://e/a was discovered and queued,
the seed task settled. -/
def st2 : CrawlState :=
  (getResume baseE env3 "https://e/" "https://e/" st1).mkTasks
    ([] ++ TaskPhase.done :: [])

/-- State after the seed finally callback ran: check dispatched https://e/a,
which is now claimed, its task parked at the HEAD await. -/
def st3 : CrawlState :=
  check opts1 { st2 with tasks := [] ++ [], activeWorkers := st2.activeWorkers - 1 }

/-- State after the HEAD of https://e/a resumed: the response redirected onto
the already visited seed, so the task abandoned processing and settled
without a GET. -/
def st4 : CrawlState :=
  ((headResume baseE env3 "https://e/a" st3).1).mkTasks
    ([] ++ (headResume baseE env3 "https://e/a" st3).2 :: [])

/-- Final state of the env3 run: the finally callback of the abandoned task
ran, the queue is empty, no worker is active, the completion promise was
resolved once. -/
def st5 : CrawlState :=
  check opts1 { st4 with tasks := [] ++ [], activeWorkers := st4.activeWorkers - 1 }

/-- Data invariant of the dispatcher: the active-worker counter equals the
number of in-flight tasks, the visited set and the HEAD trace are free of
duplicates, every probed URL was claimed, and the counter respects a
configured concurrency limit. -/
def DispatchInv (c : Option Nat) (s : CrawlState) : Prop :=
  s.activeWorkers = s.tasks.length ∧
  s.visited.Nodup ∧
  s.log.heads.Nodup ∧
  (∀ u ∈ s.log.heads, u ∈ s.visited) ∧
  (∀ k, c = some k → s.activeWorkers ≤ k)

/-- Full run invariant: the data invariant, the completion discipline (the
promise is unresolved while work remains, and is resolved exactly once at
quiescence), and the fact that the engine never invokes the screenshot
callback. -/
def RunInv (opts : CrawlerOptions) (s : CrawlState) : Prop :=
  DispatchInv opts.concurrency s ∧
  ((s.resolveCount = 0 ∧ (s.queue ≠ [] ∨ s.tasks ≠ [])) ∨
    (s.resolveCount = 1 ∧ s.queue = [] ∧ s.tasks = [])) ∧
  s.log.screenshots = []

/-- State after run() dispatched the seed in the 404 environment. -/
def u0 : CrawlState := initState opts1 baseE

/-- State after the seed HEAD resumed with the non-throwing 404 response: the
result is recorded with status 404, no error is logged, no GET is issued. -/
def u1 : CrawlState :=
  ((headResume baseE env404 "https://e/" u0).1).mkTasks
    ([] ++ (headResume baseE env404 "https://e/" u0).2 :: [])

/-- Final state of the 404 run: the single task settled and check resolved
the completion promise. -/
def u2 : CrawlState :=
  check opts1 { u1 with tasks := [] ++ [], activeWorkers := u1.activeWorkers - 1 }

/-! Helper lemmas about the dispatcher. -/

theorem startTask_effects (url : String) (s : CrawlState) :
    (startTask url s).queue = s.queue ∧
    (startTask url s).activeWorkers = s.activeWorkers ∧
    (startTask url s).resolveCount = s.resolveCount ∧
    (startTask url s).log.screenshots = s.log.screenshots ∧
    (startTask url s).tasks.length = s.tasks.length + 1 := by
  unfold startTask
  split <;> simp

theorem startTask_claims (url : String) (s : CrawlState)
    (hvis : s.visited.Nodup) (hh : s.log.heads.Nodup)
    (hsub : ∀ u ∈ s.log.heads, u ∈ s.visited) :
    (startTask url s).visited.Nodup ∧ (startTask url s).log.heads.Nodup ∧
    (∀ u ∈ (startTask url s).log.heads, u ∈ (startTask url s).visited) := by
  unfold startTask
  split
  · exact ⟨hvis, hh, hsub⟩
  next hni =>
    refine ⟨?_, ?_, ?_⟩
    · simp only [List.nodup_append, List.nodup_cons, List.nodup_nil]
      exact ⟨hvis, by simp, by simpa using fun hmem => hni hmem⟩
    · simp only [List.nodup_append, List.nodup_cons, List.nodup_nil]
      exact ⟨hh, by simp, by simpa using fun hmem => hni (hsub url hmem)⟩
    · intro u hu
      simp only [List.mem_append, List.mem_singleton] at hu ⊢
      rcases hu with hu | hu
      · exact Or.inl (hsub u hu)
      · exact Or.inr hu

theorem dispatchFuel_dinv (c : Option Nat) :
    ∀ (fuel : Nat) (s : CrawlState), DispatchInv c s →
    DispatchInv c (dispatchFuel c fuel s) ∧
    (dispatchFuel c fuel s).resolveCount = s.resolveCount ∧
    (dispatchFuel c fuel s).log.screenshots = s.log.screenshots := by
  intro fuel
  induction fuel with
  | zero => intro s h; exact ⟨h, rfl, rfl⟩
  | succ n ih =>
    intro s h
    obtain ⟨haw, hvis, hh, hsub, hbound⟩ := h
    unfold dispatchFuel
    cases hq : s.queue with
    | nil => exact ⟨⟨haw, hvis, hh, hsub, hbound⟩, rfl, rfl⟩
    | cons url rest =>
      dsimp only
      by_cases hlt : jsLtOpt s.activeWorkers c = true
      · rw [if_pos hlt]
        set mid := { s with queue := rest, activeWorkers := s.activeWorkers + 1 } with hmid
        obtain ⟨e1, e2, e3, e4, e5⟩ := startTask_effects url mid
        obtain ⟨n1, n2, n3⟩ := startTask_claims url mid hvis hh hsub
        have hd : DispatchInv c (startTask url mid) := by
          refine ⟨?_, n1, n2, n3, ?_⟩
          · rw [e2, e5]; simpa using haw
          · intro k hk
            rw [e2]
            have := hbound k hk
            cases c with
            | none => simp [jsLtOpt] at hlt
            | some c0 =>
              cases hk
              simpa [jsLtOpt, Nat.succ_le_iff] using
                (by simpa [jsLtOpt] using hlt : s.activeWorkers < k)
        obtain ⟨ih1, ih2, ih3⟩ := ih (startTask url mid) hd
        exact ⟨ih1, by rw [ih2, e3], by rw [ih3, e4]⟩
      · rw [if_neg hlt]
        exact ⟨⟨haw, hvis, hh, hsub, hbound⟩, rfl, rfl⟩

theorem check_runinv (opts : CrawlerOptions) (s : CrawlState)
    (h : DispatchInv opts.concurrency s) (hrc : s.resolveCount = 0)
    (hscr : s.log.screenshots = []) : RunInv opts (check opts s) := by
  unfold check
  obtain ⟨hd, hrc1, hscr1⟩ := dispatchFuel_dinv opts.concurrency s.queue.length s h
  set s1 := dispatchFuel opts.concurrency s.queue.length s with hs1
  show RunInv opts
    (if s1.queue = [] ∧ s1.activeWorkers = 0 then
      { s1 with resolveCount := s1.resolveCount + 1 } else s1)
  split
  next hcond =>
    obtain ⟨haw, hvis, hh, hsub, hbound⟩ := hd
    refine ⟨⟨haw, hvis, hh, hsub, hbound⟩, ?_, by simpa using hscr1.trans hscr⟩
    refine Or.inr ⟨by simp [hrc1, hrc], hcond.1, ?_⟩
    have : s1.tasks.length = 0 := by rw [← haw, hcond.2]
    simpa using List.length_eq_zero.mp this
  next hcond =>
    refine ⟨hd, Or.inl ⟨hrc1.trans hrc, ?_⟩, hscr1.trans hscr⟩
    by_cases hq : s1.queue = []
    · right
      intro ht
      exact hcond ⟨hq, by rw [hd.1, ht]; rfl⟩
    · exact Or.inl hq

theorem headResume_facts (base : Url) (env : Env) (url : String) (s : CrawlState) :
    (headResume base env url s).1.queue = s.queue ∧
    (headResume base env url s).1.activeWorkers = s.activeWorkers ∧
    (headResume base env url s).1.resolveCount = s.resolveCount ∧
    (headResume base env url s).1.log.heads = s.log.heads ∧
    (headResume base env url s).1.log.screenshots = s.log.screenshots ∧
    ((headResume base env url s).1.visited = s.visited ∨
      ∃ fu, fu ∉ s.visited ∧ (headResume base env url s).1.visited = s.visited ++ [fu]) := by
  unfold headResume recordError
  cases env.head url with
  | throws msg => exact ⟨rfl, rfl, rfl, rfl, rfl, Or.inl rfl⟩
  | ok r =>
    dsimp only
    split
    · exact ⟨rfl, rfl, rfl, rfl, rfl, Or.inl rfl⟩
    next hno =>
      by_cases hne : finalUrlOf url r ≠ url
      · have hnv : finalUrlOf url r ∉ s.visited := fun hmem => hno ⟨hne, hmem⟩
        rw [if_pos hne]
        cases env.parseUrl (finalUrlOf url r) with
        | none => exact ⟨rfl, rfl, rfl, rfl, rfl, Or.inr ⟨_, hnv, rfl⟩⟩
        | some cu =>
          dsimp only
          split
          · exact ⟨rfl, rfl, rfl, rfl, rfl, Or.inr ⟨_, hnv, rfl⟩⟩
          · exact ⟨rfl, rfl, rfl, rfl, rfl, Or.inr ⟨_, hnv, rfl⟩⟩
      · rw [if_neg hne]
        cases env.parseUrl (finalUrlOf url r) with
        | none => exact ⟨rfl, rfl, rfl, rfl, rfl, Or.inl rfl⟩
        | some cu =>
          dsimp only
          split
          · exact ⟨rfl, rfl, rfl, rfl, rfl, Or.inl rfl⟩
          · exact ⟨rfl, rfl, rfl, rfl, rfl, Or.inl rfl⟩

theorem getResume_facts (base : Url) (env : Env) (url finalUrl : String) (s : CrawlState) :
    (getResume base env url finalUrl s).activeWorkers = s.activeWorkers ∧
    (getResume base env url finalUrl s).resolveCount = s.resolveCount ∧
    (getResume base env url finalUrl s).log.heads = s.log.heads ∧
    (getResume base env url finalUrl s).log.screenshots = s.log.screenshots ∧
    (getResume base env url finalUrl s).visited = s.visited := by
  unfold getResume recordError
  cases env.get finalUrl with
  | throws msg => exact ⟨rfl, rfl, rfl, rfl, rfl⟩
  | ok anchors => exact ⟨rfl, rfl, rfl, rfl, rfl⟩

theorem step_runinv (base : Url) (opts : CrawlerOptions) (env : Env)
    {s s1 : CrawlState} (h : RunInv opts s) (hs : Step base opts env s s1) :
    RunInv opts s1 := by
  obtain ⟨⟨haw, hvis, hh, hsub, hbound⟩, hterm, hscr⟩ := h
  cases hs with
  | resumeHead t1 t2 url ht =>
    obtain ⟨e1, e2, e3, e4, e5, e6⟩ := headResume_facts base env url s
    have hrc0 : s.resolveCount = 0 := by
      rcases hterm with ⟨h0, _⟩ | ⟨_, _, hts⟩
      · exact h0
      · rw [ht] at hts; simp at hts
    refine ⟨⟨?_, ?_, ?_, ?_, ?_⟩, ?_, ?_⟩
    · show (headResume base env url s).1.activeWorkers =
        (t1 ++ (headResume base env url s).2 :: t2).length
      rw [e2, haw, ht]; simp
    · show (headResume base env url s).1.visited.Nodup
      rcases e6 with hsame | ⟨fu, hf1, hf2⟩
      · rw [hsame]; exact hvis
      · rw [hf2]
        simp only [List.nodup_append, List.nodup_cons, List.nodup_nil]
        exact ⟨hvis, by simp, by simpa using fun hmem => hf1 hmem⟩
    · show (headResume base env url s).1.log.heads.Nodup
      rw [e4]; exact hh
    · show ∀ u ∈ (headResume base env url s).1.log.heads,
        u ∈ (headResume base env url s).1.visited
      intro u hu
      rw [e4] at hu
      rcases e6 with hsame | ⟨fu, hf1, hf2⟩
      · rw [hsame]; exact hsub u hu
      · rw [hf2]; simp only [List.mem_append]; exact Or.inl (hsub u hu)
    · intro k hk
      show (headResume base env url s).1.activeWorkers ≤ k
      rw [e2]; exact hbound k hk
    · refine Or.inl ⟨?_, Or.inr ?_⟩
      · show (headResume base env url s).1.resolveCount = 0
        rw [e3]; exact hrc0
      · show t1 ++ (headResume base env url s).2 :: t2 ≠ []
        simp
    · show (headResume base env url s).1.log.screenshots = []
      rw [e5]; exact hscr
  | resumeGet t1 t2 url finalUrl ht =>
    obtain ⟨e1, e2, e3, e4, e5⟩ := getResume_facts base env url finalUrl s
    have hrc0 : s.resolveCount = 0 := by
      rcases hterm with ⟨h0, _⟩ | ⟨_, _, hts⟩
      · exact h0
      · rw [ht] at hts; simp at hts
    refine ⟨⟨?_, ?_, ?_, ?_, ?_⟩,
      Or.inl ⟨?_, Or.inr (by simp [CrawlState.mkTasks])⟩, ?_⟩
    · show (getResume base env url finalUrl s).activeWorkers =
        (t1 ++ TaskPhase.done :: t2).length
      rw [e1, haw, ht]; simp
    · show (getResume base env url finalUrl s).visited.Nodup
      rw [e5]; exact hvis
    · show (getResume base env url finalUrl s).log.heads.Nodup
      rw [e3]; exact hh
    · show ∀ u ∈ (getResume base env url finalUrl s).log.heads,
        u ∈ (getResume base env url finalUrl s).visited
      intro u hu
      rw [e3] at hu; rw [e5]; exact hsub u hu
    · intro k hk
      show (getResume base env url finalUrl s).activeWorkers ≤ k
      rw [e1]; exact hbound k hk
    · show (getResume base env url finalUrl s).resolveCount = 0
      rw [e2]; exact hrc0
    · show (getResume base env url finalUrl s).log.screenshots = []
      rw [e4]; exact hscr
  | taskSettled t1 t2 ht =>
    have hrc0 : s.resolveCount = 0 := by
      rcases hterm with ⟨h0, _⟩ | ⟨_, _, hts⟩
      · exact h0
      · rw [ht] at hts; simp at hts
    apply check_runinv
    · refine ⟨?_, hvis, hh, hsub, ?_⟩
      · show s.activeWorkers - 1 = (t1 ++ t2).length
        rw [haw, ht]; simp [Nat.add_sub_cancel]
      · intro k hk
        show s.activeWorkers - 1 ≤ k
        exact le_trans (Nat.sub_le _ _) (hbound k hk)
    · exact hrc0
    · exact hscr

theorem reachable_runinv (base : Url) (opts : CrawlerOptions) (env : Env)
    {s : CrawlState} (h : Reachable base opts env s) : RunInv opts s := by
  induction h with
  | init =>
    apply check_runinv
    · exact ⟨rfl, List.nodup_nil, List.nodup_nil, by simp, fun k _ => Nat.zero_le k⟩
    · rfl
    · rfl
  | step _ hs ih => exact step_runinv base opts env ih hs

/-! Helper lemmas about deduplication, the result map and link extraction. -/

theorem dedupAux_nodup (l : List String) :
    ∀ acc : List String, acc.Nodup →
    (l.foldl (fun acc x => if x ∈ acc then acc else acc ++ [x]) acc).Nodup := by
  induction l with
  | nil => intro acc h; exact h
  | cons x t ih =>
    intro acc h
    simp only [List.foldl_cons]
    by_cases hx : x ∈ acc
    · rw [if_pos hx]; exact ih acc h
    · rw [if_neg hx]
      apply ih
      simp only [List.nodup_append, List.nodup_cons, List.nodup_nil]
      exact ⟨h, by simp, by simpa using fun hm => hx hm⟩

theorem jsSetDedup_nodup (l : List String) : (jsSetDedup l).Nodup :=
  dedupAux_nodup l [] List.nodup_nil

theorem dedupAux_mem (l : List String) :
    ∀ (acc : List String) (x : String),
    x ∈ l.foldl (fun acc x => if x ∈ acc then acc else acc ++ [x]) acc →
    x ∈ acc ∨ x ∈ l := by
  induction l with
  | nil => intro acc x h; exact Or.inl h
  | cons y t ih =>
    intro acc x h
    simp only [List.foldl_cons] at h
    by_cases hy : y ∈ acc
    · rw [if_pos hy] at h
      rcases ih acc x h with h1 | h1
      · exact Or.inl h1
      · exact Or.inr (List.mem_cons_of_mem _ h1)
    · rw [if_neg hy] at h
      rcases ih _ x h with h1 | h1
      · rcases List.mem_append.mp h1 with h2 | h2
        · exact Or.inl h2
        · simp only [List.mem_singleton] at h2
          subst h2
          exact Or.inr (List.mem_cons_self _ _)
      · exact Or.inr (List.mem_cons_of_mem _ h1)

theorem jsSetDedup_mem {l : List String} {x : String} (h : x ∈ jsSetDedup l) : x ∈ l := by
  rcases dedupAux_mem l [] x h with h1 | h1
  · simp at h1
  · exact h1

theorem mapGet_mapSet_self (m : List (String × CrawlResult)) (k : String) (v : CrawlResult) :
    mapGet (mapSet m k v) k = some v := by
  unfold mapSet
  split
  next h =>
    unfold mapGet
    induction m with
    | nil => simp at h
    | cons p t ih =>
      simp only [List.any_cons, Bool.or_eq_true] at h
      by_cases hp : p.1 == k
      · simp [List.find?, hp]
      · have hpf : (p.1 == k) = false := by simpa using hp
        simp only [List.map_cons, if_neg hp]
        simp only [List.find?, hpf]
        exact ih (by rcases h with h | h; exact absurd h hp; simpa using h)
  next h =>
    unfold mapGet
    induction m with
    | nil => simp
    | cons p t ih =>
      simp only [List.any_cons, Bool.or_eq_true, not_or] at h
      have hpf : (p.1 == k) = false := by simpa using h.1
      simp only [List.cons_append, List.find?, hpf]
      exact ih h.2

theorem dispatchFuel_none (fuel : Nat) (s : CrawlState) :
    dispatchFuel none fuel s = s := by
  cases fuel with
  | zero => rfl
  | succ n =>
    unfold dispatchFuel
    cases hq : s.queue with
    | nil => rfl
    | cons url rest => simp [jsLtOpt]

theorem extractStep_cases (resolve : String → String → Option Url) (baseHost pageUrl : String)
    (acc : List String × List String) (href : String) :
    (extractStep resolve baseHost pageUrl acc href).1 = acc.1 ∨
    ∃ u, resolve href pageUrl = some u ∧ ({ u with fragment := "" }).host = baseHost ∧
      (extractStep resolve baseHost pageUrl acc href).1
        = acc.1 ++ [({ u with fragment := "" }).href] := by
  unfold extractStep
  by_cases h0 : href = ""
  · rw [if_pos h0]; exact Or.inl rfl
  · rw [if_neg h0]
    cases hr : resolve href pageUrl with
    | none => exact Or.inl rfl
    | some u =>
      dsimp only
      by_cases hh : ({ u with fragment := "" } : Url).host == baseHost
      · rw [if_pos hh]
        exact Or.inr ⟨u, rfl, by simpa using hh, rfl⟩
      · rw [if_neg hh]; exact Or.inl rfl

theorem extractFold_mem (resolve : String → String → Option Url) (baseHost pageUrl : String)
    (anchors : List String) :
    ∀ (acc : List String × List String),
    ∀ l ∈ (anchors.foldl (extractStep resolve baseHost pageUrl) acc).1,
      l ∈ acc.1 ∨ ∃ href ∈ anchors, ∃ u, resolve href pageUrl = some u ∧
        ({ u with fragment := "" }).host = baseHost ∧ l = ({ u with fragment := "" }).href := by
  induction anchors with
  | nil => intro acc l h; exact Or.inl h
  | cons a t ih =>
    intro acc l h
    simp only [List.foldl_cons] at h
    rcases ih _ l h with h1 | ⟨href, hhr, u, hu, hhost, hl⟩
    · rcases extractStep_cases resolve baseHost pageUrl acc a with h2 | ⟨u, hu, hhost, h2⟩
      · rw [h2] at h1; exact Or.inl h1
      · rw [h2] at h1
        rcases List.mem_append.mp h1 with h3 | h3
        · exact Or.inl h3
        · simp only [List.mem_singleton] at h3
          exact Or.inr ⟨a, List.mem_cons_self _ _, u, hu, hhost, h3⟩
    · exact Or.inr ⟨href, List.mem_cons_of_mem _ hhr, u, hu, hhost, hl⟩

theorem extractLinks_nodup (resolve : String → String → Option Url)
    (baseHost : String) (anchors : List String) (pageUrl : String) :
    (extractLinks resolve baseHost anchors pageUrl).1.Nodup := by
  unfold extractLinks
  exact jsSetDedup_nodup _

theorem extractFold_fst_irrel (resolve : String → String → Option Url)
    (baseHost pageUrl : String) (anchors : List String) :
    ∀ (l d d2 : List String),
      (anchors.foldl (extractStep resolve baseHost pageUrl) (l, d)).1
        = (anchors.foldl (extractStep resolve baseHost pageUrl) (l, d2)).1 := by
  induction anchors with
  | nil => intro l d d2; rfl
  | cons a t ih =>
    intro l d d2
    simp only [List.foldl_cons]
    have : (extractStep resolve baseHost pageUrl (l, d) a).1
        = (extractStep resolve baseHost pageUrl (l, d2) a).1 := by
      unfold extractStep
      by_cases h0 : a = ""
      · rw [if_pos h0, if_pos h0]
      · rw [if_neg h0, if_neg h0]
        cases resolve a pageUrl with
        | none => rfl
        | some u =>
          dsimp only
          split <;> rfl
    rcases hs1 : extractStep resolve baseHost pageUrl (l, d) a with ⟨l1, d1⟩
    rcases hs2 : extractStep resolve baseHost pageUrl (l, d2) a with ⟨l2, d2x⟩
    have hl : l1 = l2 := by rw [hs1, hs2] at this; exact this
    subst hl
    exact ih l1 d1 d2x

theorem extractLinks_skips_bad_anchor (resolve : String → String → Option Url)
    (baseHost pageUrl : String) (xs ys : List String) (bad : String)
    (h0 : bad ≠ "") (hr : resolve bad pageUrl = none) :
    (extractLinks resolve baseHost (xs ++ bad :: ys) pageUrl).1
      = (extractLinks resolve baseHost (xs ++ ys) pageUrl).1 := by
  unfold extractLinks
  dsimp only
  rw [List.foldl_append, List.foldl_cons, List.foldl_append]
  have hstep : extractStep resolve baseHost pageUrl
      (xs.foldl (extractStep resolve baseHost pageUrl) ([], [])) bad
      = ((xs.foldl (extractStep resolve baseHost pageUrl) ([], [])).1,
         (xs.foldl (extractStep resolve baseHost pageUrl) ([], [])).2
           ++ ["URLパース失敗: " ++ bad]) := by
    unfold extractStep
    rw [if_neg h0, hr]
  rw [hstep]
  congr 1
  simpa using extractFold_fst_irrel resolve baseHost pageUrl ys
    (xs.foldl (extractStep resolve baseHost pageUrl) ([], [])).1
    ((xs.foldl (extractStep resolve baseHost pageUrl) ([], [])).2
      ++ ["URLパース失敗: " ++ bad])
    (xs.foldl (extractStep resolve baseHost pageUrl) ([], [])).2

theorem extractLinks_logs_bad_anchor (resolve : String → String → Option Url)
    (baseHost pageUrl : String) (xs : List String) (bad : String)
    (h0 : bad ≠ "") (hr : resolve bad pageUrl = none) :
    (extractLinks resolve baseHost (xs ++ [bad]) pageUrl).2
      = (extractLinks resolve baseHost xs pageUrl).2 ++ ["URLパース失敗: " ++ bad] := by
  unfold extractLinks
  dsimp only
  rw [List.foldl_append, List.foldl_cons, List.foldl_nil]
  unfold extractStep
  rw [if_neg h0, hr]

/-! Reachability of the concrete demonstration states. -/

theorem reachable_st1 : Reachable baseE opts1 env3 st1 :=
  Reachable.step Reachable.init (Step.resumeHead st0 [] [] "https://e/" (by decide))

theorem reachable_st2 : Reachable baseE opts1 env3 st2 :=
  Reachable.step reachable_st1 (Step.resumeGet st1 [] [] "https://e/" "https://e/" (by decide))

theorem reachable_st3 : Reachable baseE opts1 env3 st3 :=
  Reachable.step reachable_st2 (Step.taskSettled st2 [] [] (by decide))

theorem reachable_st4 : Reachable baseE opts1 env3 st4 :=
  Reachable.step reachable_st3 (Step.resumeHead st3 [] [] "https://e/a" (by decide))

theorem reachable_st5 : Reachable baseE opts1 env3 st5 :=
  Reachable.step reachable_st4 (Step.taskSettled st4 [] [] (by decide))

theorem reachable_u2 : Reachable baseE opts1 env404 u2 :=
  Reachable.step (Reachable.step Reachable.init
    (Step.resumeHead u0 [] [] "https://e/" (by decide)))
    (Step.taskSettled u1 [] [] (by decide))

/-! Claim theorems. -/

/-- C1: for every run started by run, the completion promise is resolved only
in a state where the frontier queue is empty and the active-worker count is
zero; the completion signal fires at most once over the whole run, no matter
how the concurrently finishing workers interleave; and in every reachable
quiescent state (empty queue and no in-flight task) it has fired exactly
once. -/
theorem run_resolves_exactly_once_at_quiescence (base : Url) (opts : CrawlerOptions)
    (env : Env) (s : CrawlState) (h : Reachable base opts env s) :
    s.resolveCount ≤ 1 ∧
    (s.resolveCount = 1 → s.queue = [] ∧ s.activeWorkers = 0) ∧
    (s.queue = [] ∧ s.tasks = [] → s.resolveCount = 1) := by
  obtain ⟨⟨haw, -, -, -, -⟩, hterm, -⟩ := reachable_runinv base opts env h
  refine ⟨?_, ?_, ?_⟩
  · rcases hterm with ⟨h0, -⟩ | ⟨h1, -, -⟩
    · rw [h0]; exact Nat.zero_le 1
    · rw [h1]
  · intro hone
    rcases hterm with ⟨h0, -⟩ | ⟨-, hq, hts⟩
    · rw [h0] at hone; exact absurd hone (by simp)
    · exact ⟨hq, by rw [haw, hts]; rfl⟩
  · rintro ⟨hq, hts⟩
    rcases hterm with ⟨-, hne⟩ | ⟨h1, -, -⟩
    · rcases hne with hne | hne
      · exact absurd hq hne
      · exact absurd hts hne
    · exact h1

/-- C1 witness: the completed env3 run instantiates the theorem. -/
theorem run_resolves_exactly_once_at_quiescence_witness :
    st5.resolveCount ≤ 1 ∧
    (st5.resolveCount = 1 → st5.queue = [] ∧ st5.activeWorkers = 0) ∧
    (st5.queue = [] ∧ st5.tasks = [] → st5.resolveCount = 1) :=
  run_resolves_exactly_once_at_quiescence baseE opts1 env3 st5 reachable_st5

/-- C2: in every reachable state of every run, the visited set holds each URL
at most once (each URL is claimed at most once, by the synchronous
test-and-insert that runs before any asynchronous work of its task), the HEAD
trace holds each URL at most once (no URL is probed twice), and every probed
URL was claimed. -/
theorem urls_claimed_once_and_probed_once (base : Url) (opts : CrawlerOptions)
    (env : Env) (s : CrawlState) (h : Reachable base opts env s) :
    s.visited.Nodup ∧ s.log.heads.Nodup ∧ ∀ u ∈ s.log.heads, u ∈ s.visited := by
  obtain ⟨⟨-, hvis, hh, hsub, -⟩, -, -⟩ := reachable_runinv base opts env h
  exact ⟨hvis, hh, hsub⟩

/-- C2 witness: the completed env3 run instantiates the theorem. -/
theorem urls_claimed_once_and_probed_once_witness :
    st5.visited.Nodup ∧ st5.log.heads.Nodup ∧ ∀ u ∈ st5.log.heads, u ∈ st5.visited :=
  urls_claimed_once_and_probed_once baseE opts1 env3 st5 reachable_st5

/-- C3 counterexample: the claim that a GET is issued whenever the final URL
is internal with HEAD status 200 and an HTML content type fails on the
redirect-collision path of processUrl (line 76).  In the reachable state st3
the URL https://e/a is claimed and parked at its HEAD await, its probe
response has status 200, an HTML content type, and an internal final URL, yet
resuming it issues no GET and settles the task, because the final URL
https://e/ is already in the visited set. -/
theorem redirect_collision_skips_get_counterexample :
    Reachable baseE opts1 env3 st3 ∧
    st3.tasks = [TaskPhase.awaitingHead "https://e/a"] ∧
    "https://e/a" ∈ st3.visited ∧
    (∃ r, env3.head "https://e/a" = HeadOutcome.ok r ∧ r.status = 200 ∧
      strContains r.contentType "text/html" = true ∧
      (∃ u, env3.parseUrl (finalUrlOf "https://e/a" r) = some u ∧ u.host = baseE.host)) ∧
    (headResume baseE env3 "https://e/a" st3).2 = TaskPhase.done ∧
    (headResume baseE env3 "https://e/a" st3).1.log.gets = st3.log.gets :=
  ⟨reachable_st3, by decide, by decide,
   ⟨⟨200, "text/html", some "https://e/"⟩, by decide, rfl, by decide,
    ⟨baseE, by decide, rfl⟩⟩,
   by decide, by decide⟩

/-- C3 amended: for a claimed URL whose HEAD await resumes with a non-throwing
response, a GET is issued (the GET trace grows by the final URL and the task
parks at the GET await) if and only if the final URL has not already been
claimed by another task (the redirect-collision abandonment of line 76), the
final URL parses and its hostname equals the base host, the content type
contains text/html, and the status is 200; moreover the task issues at most
one GET. -/
theorem get_issued_iff_qualified_and_unclaimed (base : Url) (env : Env) (url : String)
    (s : CrawlState) (r : HeadResponse) (hok : env.head url = HeadOutcome.ok r) :
    (((headResume base env url s).1.log.gets = s.log.gets ++ [finalUrlOf url r] ∧
      (headResume base env url s).2 = TaskPhase.awaitingGet url (finalUrlOf url r))
      ↔ (¬(finalUrlOf url r ≠ url ∧ finalUrlOf url r ∈ s.visited) ∧
        (∃ u, env.parseUrl (finalUrlOf url r) = some u ∧ u.host = base.host) ∧
        strContains r.contentType "text/html" = true ∧ r.status = 200)) ∧
    ((headResume base env url s).1.log.gets = s.log.gets ∨
      (headResume base env url s).1.log.gets = s.log.gets ++ [finalUrlOf url r]) := by
  unfold headResume
  rw [hok]
  dsimp only
  by_cases h1 : finalUrlOf url r ≠ url ∧ finalUrlOf url r ∈ s.visited
  · rw [if_pos h1]
    constructor
    · constructor
      · rintro ⟨hg, -⟩
        exact absurd hg (by simp)
      · rintro ⟨hn, -⟩
        exact absurd h1 hn
    · exact Or.inl rfl
  · rw [if_neg h1]
    set s1 := (if finalUrlOf url r ≠ url then
      { s with visited := s.visited ++ [finalUrlOf url r] } else s) with hs1
    have hl : s1.log = s.log := by
      rw [hs1]; split <;> rfl
    cases hp : env.parseUrl (finalUrlOf url r) with
    | none =>
      dsimp only
      refine ⟨?_, Or.inl ?_⟩
      · constructor
        · rintro ⟨hg, -⟩
          rw [show (recordError url "Invalid URL" s1).log.gets = s.log.gets from by
            unfold recordError; rw [hl]] at hg
          exact absurd hg (by simp)
        · rintro ⟨-, ⟨u, hu, -⟩, -⟩
          exact absurd hu (by simp)
      · show (recordError url "Invalid URL" s1).log.gets = s.log.gets
        unfold recordError; rw [hl]
    | some cu =>
      dsimp only
      by_cases hcond :
          (cu.host == base.host && strContains r.contentType "text/html" && (r.status == 200)) = true
      · rw [if_pos hcond]
        simp only [Bool.and_eq_true, beq_iff_eq] at hcond
        refine ⟨iff_of_true ⟨?_, rfl⟩ ⟨h1, ⟨cu, rfl, hcond.1.1⟩, hcond.1.2, hcond.2⟩, Or.inr ?_⟩
        · show s1.log.gets ++ [finalUrlOf url r] = s.log.gets ++ [finalUrlOf url r]
          rw [hl]
        · show s1.log.gets ++ [finalUrlOf url r] = s.log.gets ++ [finalUrlOf url r]
          rw [hl]
      · rw [if_neg hcond]
        refine ⟨iff_of_false ?_ ?_, Or.inl ?_⟩
        · rintro ⟨-, hph⟩
          exact absurd hph (by simp)
        · rintro ⟨-, ⟨u, hu, hhost⟩, hct, hst⟩
          apply hcond
          have hcu : u = cu := (Option.some.injEq _ _ ▸ hu).symm
          subst hcu
          simp only [Bool.and_eq_true, beq_iff_eq]
          exact ⟨⟨hhost, hct⟩, hst⟩
        · show s1.log.gets = s.log.gets
          rw [hl]

/-- C3 amended witness: the seed resumption of the env3 run instantiates the
theorem. -/
theorem get_issued_iff_qualified_and_unclaimed_witness :
    (headResume baseE env3 "https://e/" st0).1.log.gets = st0.log.gets ∨
    (headResume baseE env3 "https://e/" st0).1.log.gets
      = st0.log.gets ++ [finalUrlOf "https://e/" ⟨200, "text/html; charset=utf-8", none⟩] :=
  (get_issued_iff_qualified_and_unclaimed baseE env3 "https://e/" st0
    ⟨200, "text/html; charset=utf-8", none⟩ (by decide)).2

/-- C4: an error thrown while a task awaits its HEAD or its GET is caught at
the task boundary: the error line is logged, a CrawlResult keyed by the
requested URL with status ERR: message and isExternal false is recorded, the
task settles (phase done, so its finally callback runs and the scheduler
continues), and the shared scheduler state (queue, active-worker counter,
visited set) is untouched, so nothing propagates to the dispatch loop. -/
theorem errors_contained_at_task_boundary (base : Url) (env : Env)
    (url finalUrl msg1 msg2 : String) (s : CrawlState)
    (h1 : env.head url = HeadOutcome.throws msg1)
    (h2 : env.get finalUrl = GetOutcome.throws msg2) :
    ((headResume base env url s).2 = TaskPhase.done ∧
      mapGet (headResume base env url s).1.results url
        = some ⟨url, Status.err ("ERR: " ++ msg1), false⟩ ∧
      (headResume base env url s).1.log.errors = s.log.errors ++ [errLine url msg1] ∧
      (headResume base env url s).1.queue = s.queue ∧
      (headResume base env url s).1.activeWorkers = s.activeWorkers ∧
      (headResume base env url s).1.visited = s.visited) ∧
    (mapGet (getResume base env url finalUrl s).results url
        = some ⟨url, Status.err ("ERR: " ++ msg2), false⟩ ∧
      (getResume base env url finalUrl s).log.errors = s.log.errors ++ [errLine url msg2] ∧
      (getResume base env url finalUrl s).queue = s.queue ∧
      (getResume base env url finalUrl s).activeWorkers = s.activeWorkers) := by
  constructor
  · unfold headResume
    rw [h1]
    unfold recordError
    exact ⟨rfl, mapGet_mapSet_self _ _ _, rfl, rfl, rfl, rfl⟩
  · unfold getResume
    rw [h2]
    unfold recordError
    exact ⟨mapGet_mapSet_self _ _ _, rfl, rfl, rfl⟩

/-- C4 witness: a task for the unreachable host https://x/ in env3
instantiates the theorem for both the throwing HEAD and the throwing GET. -/
theorem errors_contained_at_task_boundary_witness :
    ((headResume baseE env3 "https://x/" st0).2 = TaskPhase.done ∧
      mapGet (headResume baseE env3 "https://x/" st0).1.results "https://x/"
        = some ⟨"https://x/", Status.err "ERR: ECONNREFUSED", false⟩ ∧
      (headResume baseE env3 "https://x/" st0).1.log.errors
        = st0.log.errors ++ [errLine "https://x/" "ECONNREFUSED"] ∧
      (headResume baseE env3 "https://x/" st0).1.queue = st0.queue ∧
      (headResume baseE env3 "https://x/" st0).1.activeWorkers = st0.activeWorkers ∧
      (headResume baseE env3 "https://x/" st0).1.visited = st0.visited) ∧
    (mapGet (getResume baseE env3 "https://x/" "https://x/" st0).results "https://x/"
        = some ⟨"https://x/", Status.err "ERR: getaddrinfo ENOTFOUND", false⟩ ∧
      (getResume baseE env3 "https://x/" "https://x/" st0).log.errors
        = st0.log.errors ++ [errLine "https://x/" "getaddrinfo ENOTFOUND"] ∧
      (getResume baseE env3 "https://x/" "https://x/" st0).queue = st0.queue ∧
      (getResume baseE env3 "https://x/" "https://x/" st0).activeWorkers = st0.activeWorkers) :=
  errors_contained_at_task_boundary baseE env3 "https://x/" "https://x/"
    "ECONNREFUSED" "getaddrinfo ENOTFOUND" st0 (by decide) (by decide)

/-- C5: in every reachable state of a run whose concurrency option is set,
the active-worker count never exceeds the configured limit. -/
theorem active_workers_bounded_by_concurrency (base : Url) (opts : CrawlerOptions)
    (env : Env) (s : CrawlState) (h : Reachable base opts env s)
    (c : Nat) (hc : opts.concurrency = some c) :
    s.activeWorkers ≤ c := by
  obtain ⟨⟨-, -, -, -, hbound⟩, -, -⟩ := reachable_runinv base opts env h
  exact hbound c hc

/-- C5 witness: the completed env3 run with limit 1 instantiates the
theorem. -/
theorem active_workers_bounded_by_concurrency_witness : st5.activeWorkers ≤ 1 :=
  active_workers_bounded_by_concurrency baseE opts1 env3 st5 reachable_st5 1 rfl

/-- C6 counterexample: the claim that the report is sorted by ordinary
lexicographic string ordering fails, because printReport sorts with the
locale-aware comparator localeCompare (line 130).  On two internal results
with URLs https://e/B and https://e/a the rendered report puts the lowercase
entry first, although in ordinary code-unit lexicographic order the uppercase
URL is strictly smaller, so the output is not lexicographically sorted. -/
theorem report_not_lexicographically_sorted_counterexample :
    printReport [⟨"https://e/B", Status.num 200, false⟩, ⟨"https://e/a", Status.num 200, false⟩]
      = [reportLine ⟨"https://e/a", Status.num 200, false⟩,
         reportLine ⟨"https://e/B", Status.num 200, false⟩] ∧
    lexLeString "https://e/B" "https://e/a" ∧
    "https://e/B" ≠ "https://e/a" ∧
    ¬ List.Pairwise lexLeResult
        (List.insertionSort reportOrder
          [⟨"https://e/B", Status.num 200, false⟩, ⟨"https://e/a", Status.num 200, false⟩]) :=
  ⟨by decide, by decide, by decide, by decide⟩

/-- C6 amended: the final report sorts the accumulated results by URL with
the locale-aware localeCompare comparator (which can deviate from ordinary
code-unit lexicographic order when letter case differs), renders exactly the
accumulated entries (a permutation: emission reads the result map without
adding, dropping or mutating entries), and an entry is marked ok if and only
if its status is numeric and below 400; each line carries the internal or
external tag of its entry. -/
theorem report_locale_sorted_and_ok_flag (rs : List CrawlResult) :
    List.Sorted reportOrder (List.insertionSort reportOrder rs) ∧
    (printReport rs).Perm (rs.map reportLine) ∧
    (∀ r : CrawlResult, isOkStatus r.status = true ↔ ∃ n, r.status = Status.num n ∧ n < 400) := by
  refine ⟨List.sorted_insertionSort reportOrder rs,
    (List.perm_insertionSort reportOrder rs).map reportLine, ?_⟩
  intro r
  cases hr : r.status with
  | num n => simp [isOkStatus]
  | err m => simp [isOkStatus]

/-- C7: for every resolver, base host, anchor list and page URL, extractLinks
returns a duplicate-free list; every returned link is the serialization of a
successfully resolved anchor href with its fragment cleared and its hostname
equal to the base host (hence an absolute fragment-stripped same-host URL);
an anchor whose href fails to resolve is skipped without affecting the links
extracted from the surrounding anchors, and contributes exactly one debug log
line; and the function is pure, so repeated calls with identical inputs
return the identical result. -/
theorem extractLinks_dedup_samehost_fragment_stripped
    (resolve : String → String → Option Url)
    (baseHost : String) (anchors : List String) (pageUrl : String) :
    (extractLinks resolve baseHost anchors pageUrl).1.Nodup ∧
    (∀ l ∈ (extractLinks resolve baseHost anchors pageUrl).1,
      ∃ href ∈ anchors, ∃ u, resolve href pageUrl = some u ∧
        ({ u with fragment := "" }).host = baseHost ∧
        l = ({ u with fragment := "" }).href) ∧
    (∀ xs ys bad, bad ≠ "" → resolve bad pageUrl = none →
      (extractLinks resolve baseHost (xs ++ bad :: ys) pageUrl).1
        = (extractLinks resolve baseHost (xs ++ ys) pageUrl).1) ∧
    (∀ xs bad, bad ≠ "" → resolve bad pageUrl = none →
      (extractLinks resolve baseHost (xs ++ [bad]) pageUrl).2
        = (extractLinks resolve baseHost xs pageUrl).2 ++ ["URLパース失敗: " ++ bad]) ∧
    extractLinks resolve baseHost anchors pageUrl
      = extractLinks resolve baseHost anchors pageUrl := by
  refine ⟨extractLinks_nodup resolve baseHost anchors pageUrl, ?_,
    fun xs ys bad h0 hr => extractLinks_skips_bad_anchor resolve baseHost pageUrl xs ys bad h0 hr,
    fun xs bad h0 hr => extractLinks_logs_bad_anchor resolve baseHost pageUrl xs bad h0 hr,
    rfl⟩
  intro l hl
  unfold extractLinks at hl
  rcases extractFold_mem resolve baseHost pageUrl anchors ([], []) l (jsSetDedup_mem hl)
    with h1 | h1
  · simp at h1
  · exact h1

/-- C7 witness: the env3 resolver on a page with a duplicate link, an
unresolvable href and a fragment link instantiates the theorem. -/
theorem extractLinks_dedup_samehost_fragment_stripped_witness :
    (extractLinks env3.resolveUrl "e" ["/a", "/a", ":bad:", "#top"] "https://e/").1
      = ["https://e/a", "https://e/"] ∧
    (extractLinks env3.resolveUrl "e" (["/a"] ++ ":bad:" :: ["#top"]) "https://e/").1
      = (extractLinks env3.resolveUrl "e" (["/a"] ++ ["#top"]) "https://e/").1 := by
  refine ⟨by decide, ?_⟩
  exact (extractLinks_dedup_samehost_fragment_stripped env3.resolveUrl "e" [] "https://e/").2.2.1
    ["/a"] ["#top"] ":bad:" (by decide) (by decide)

/-- C8: the crawl engine never invokes the configured screenshot callback: in
every reachable state of every run, with any options (in particular with a
screenshot callback configured), the screenshot invocation trace is empty,
because processUrl contains no call to options.screenshot. -/
theorem screenshot_callback_never_invoked (base : Url) (opts : CrawlerOptions)
    (env : Env) (s : CrawlState) (h : Reachable base opts env s) :
    s.log.screenshots = [] := by
  obtain ⟨-, -, hscr⟩ := reachable_runinv base opts env h
  exact hscr

/-- C8 witness: in the env3 run the options carry a configured screenshot
callback and the seed page qualified and was fetched with GET, yet no
screenshot invocation happened. -/
theorem screenshot_callback_never_invoked_witness :
    opts1.screenshot = true ∧ st1.log.gets = ["https://e/"] ∧ st1.log.screenshots = [] :=
  ⟨rfl, by decide, screenshot_callback_never_invoked baseE opts1 env3 st1 reachable_st1⟩

/-- C9 counterexample: with the concurrency option unset the engine does not
behave as if the limit were 1: the guard of the dispatch loop compares the
counter against undefined, which is false in JavaScript, so the initial check
dispatches no task, the seed stays in the queue, the completion promise is
never resolved, and no step is possible: the run hangs instead of
completing. -/
theorem concurrency_unset_stuck_counterexample :
    (initState optsNone baseE).tasks = [] ∧
    (initState optsNone baseE).queue = [baseE.href] ∧
    (initState optsNone baseE).resolveCount = 0 ∧
    Stuck baseE optsNone env3 (initState optsNone baseE) := by
  refine ⟨by decide, by decide, by decide, ?_⟩
  intro s1 hs
  have ht : (initState optsNone baseE).tasks = [] := by decide
  cases hs with
  | resumeHead t1 t2 url h => rw [ht] at h; exact absurd h (by simp)
  | resumeGet t1 t2 url finalUrl h => rw [ht] at h; exact absurd h (by simp)
  | taskSettled t1 t2 h => rw [ht] at h; exact absurd h (by simp)

/-- C9 amended: the engine applies no default when the concurrency option is
unset (the interface requires the field and the CLI supplies 1); if it is
nevertheless unset at runtime, the dispatch guard is always false, so in
every reachable state no task was ever started, no HEAD was ever issued, the
seed never leaves the queue and the completion promise is never resolved. -/
theorem concurrency_unset_never_dispatches (base : Url) (opts : CrawlerOptions)
    (env : Env) (hc : opts.concurrency = none) (s : CrawlState)
    (h : Reachable base opts env s) :
    s.tasks = [] ∧ s.log.heads = [] ∧ s.resolveCount = 0 ∧ s.queue = [base.href] := by
  induction h with
  | init =>
    unfold initState check
    rw [hc, dispatchFuel_none]
    simp
  | step hr hs ih =>
    obtain ⟨ht, -, -, -⟩ := ih
    cases hs with
    | resumeHead t1 t2 url hdec => rw [ht] at hdec; exact absurd hdec (by simp)
    | resumeGet t1 t2 url finalUrl hdec => rw [ht] at hdec; exact absurd hdec (by simp)
    | taskSettled t1 t2 hdec => rw [ht] at hdec; exact absurd hdec (by simp)

/-- C9 amended witness: the initial state of a run with unset concurrency
instantiates the theorem. -/
theorem concurrency_unset_never_dispatches_witness :
    (initState optsNone baseE).tasks = [] ∧ (initState optsNone baseE).log.heads = [] ∧
    (initState optsNone baseE).resolveCount = 0 ∧
    (initState optsNone baseE).queue = [baseE.href] :=
  concurrency_unset_never_dispatches baseE optsNone env3 rfl
    (initState optsNone baseE) Reachable.init

/-- C10 counterexample: with the specified non-throwing client a HEAD status
of 404 on the seed never reaches the catch block, so although the run
resolves and the CrawlResult with status 404 is recorded, no error whatsoever
is logged: the conjunct of the claim demanding a logged error containing 404
is false on the code. -/
theorem head_404_no_error_logged_counterexample :
    Reachable baseE opts1 env404 u2 ∧
    u2.resolveCount = 1 ∧
    mapGet u2.results "https://e/" = some ⟨"https://e/", Status.num 404, false⟩ ∧
    u2.log.errors = [] :=
  ⟨reachable_u2, by decide, by decide, by decide⟩

/-- C10 amended: when the HEAD await of a URL resumes with a non-throwing
response (as with the production client, whose validateStatus accepts every
status code) and the response carries no redirect, the error log is left
untouched (nothing is logged at error severity, the catch path does not run)
and a CrawlResult keyed by the URL with the numeric probe status is recorded;
with a 404 response the run therefore resolves with the 404 recorded and no
error line; an error line containing 404 appears only under a client that
throws on 4xx, as in the repository test suite, which uses a default axios
instance. -/
theorem nonthrowing_head_records_status_without_error (base : Url) (env : Env)
    (url : String) (s : CrawlState) (r : HeadResponse) (u : Url)
    (hok : env.head url = HeadOutcome.ok r)
    (hnr : r.responseUrl = none)
    (hp : env.parseUrl url = some u) :
    (headResume base env url s).1.log.errors = s.log.errors ∧
    mapGet (headResume base env url s).1.results url
      = some ⟨url, Status.num r.status, !(u.host == base.host)⟩ := by
  unfold headResume
  rw [hok]
  have hfu : finalUrlOf url r = url := by unfold finalUrlOf; rw [hnr]
  dsimp only
  rw [hfu]
  rw [if_neg (by simp)]
  rw [if_neg (by simp)]
  rw [hp]
  dsimp only
  split
  · exact ⟨rfl, mapGet_mapSet_self _ _ _⟩
  · exact ⟨rfl, mapGet_mapSet_self _ _ _⟩

/-- C10 amended witness: the 404 probe of the env404 run instantiates the
theorem. -/
theorem nonthrowing_head_records_status_without_error_witness :
    (headResume baseE env404 "https://e/" u0).1.log.errors = u0.log.errors ∧
    mapGet (headResume baseE env404 "https://e/" u0).1.results "https://e/"
      = some ⟨"https://e/", Status.num 404, !(baseE.host == baseE.host)⟩ :=
  nonthrowing_head_records_status_without_error baseE env404 "https://e/" u0
    ⟨404, "", none⟩ baseE (by decide) rfl (by decide)
